import Mathlib

/-!
Shallow embedding of the HLK-LD2410B radar driver (radar_handler.py,
calibrate_radar.py, engg_mode_demo_normed.py) together with proofs about
its decoding, command-protocol and analytics behaviour.

Bytes are modelled as natural numbers below 256 inside `List Nat`; Python
signed fields become `Int`; Python floats arising from exact small-integer
arithmetic become `ℚ`; the blocking serial transport becomes a queue of
pre-decided raw responses inside `RadarState`.
-/

/-- TargetState enum from radar_handler.py. -/
inductive TargetState where
  | NO_TARGET
  | MOVING_TARGET
  | STATIC_TARGET
  | BOTH_TARGETS
  | UNKNOWN
  deriving DecidableEq

/-- Embeds `_parse_target_state`: `TargetState(state_byte)` with a `ValueError`
falling back to `UNKNOWN` (byte 4 is itself the `UNKNOWN` member). -/
def parse_target_state (b : Nat) : TargetState :=
  match b with
  | 0 => TargetState.NO_TARGET
  | 1 => TargetState.MOVING_TARGET
  | 2 => TargetState.STATIC_TARGET
  | 3 => TargetState.BOTH_TARGETS
  | _ => TargetState.UNKNOWN

/-- EngineeringData dataclass: per-gate energy values. -/
structure EngineeringData where
  max_moving_distance_gate : Nat
  max_static_distance_gate : Nat
  moving_energy_gates : List Nat
  static_energy_gates : List Nat
  deriving DecidableEq

/-- RadarReading dataclass (the second, engineering-aware definition,
which shadows the first in the source). -/
structure RadarReading where
  timestamp : ℚ
  target_state : TargetState
  moving_target_distance : Int
  moving_target_energy : Int
  static_target_distance : Int
  static_target_energy : Int
  detection_distance : Int
  engineering_data : Option EngineeringData
  deriving DecidableEq

/-- Embeds `RadarReading.is_valid` from radar_handler.py. -/
def RadarReading.is_valid (r : RadarReading) : Bool :=
  decide (0 ≤ r.detection_distance ∧ r.detection_distance ≤ 600 ∧
    -100 ≤ r.moving_target_energy ∧ r.moving_target_energy ≤ 100 ∧
    -100 ≤ r.static_target_energy ∧ r.static_target_energy ≤ 100 ∧
    r.target_state ≠ TargetState.UNKNOWN)

/-- Embeds `int.from_bytes(l[i:i+2], byteorder=little)` on a byte list,
with the forgiving Python slicing (missing bytes contribute nothing). -/
def le_u16 (l : List Nat) (i : Nat) : Nat :=
  l.getD i 0 + 256 * l.getD (i + 1) 0

/-- Embeds `int.from_bytes(l[i:i+2], byteorder=little, signed=True)` for
a 2-byte in-bounds slice. -/
def s16_le (l : List Nat) (i : Nat) : Int :=
  let v := le_u16 l i
  if v < 32768 then (v : Int) else (v : Int) - 65536

/-- A single byte reinterpreted as a signed 8-bit integer. -/
def s8 (b : Nat) : Int :=
  if b < 128 then (b : Int) else (b : Int) - 256

/-- The gate-energy collection loop of `read_frame`:
`for i in range(count): if offset + i < len(l): out.append(l[offset+i])`. -/
def gate_slice (l : List Nat) (offset count : Nat) : List Nat :=
  ((List.range count).filter (fun i => offset + i < l.length)).map
    (fun i => l.getD (offset + i) 0)

/-- The engineering-payload block of `read_frame` acting on
`eng_data = target_data[9:]`.  Accessing `eng_data[1]` on a one-byte list
raises `IndexError` in the source, which the enclosing `try` turns into a
`None` result; that exceptional path is the `none` branch here. -/
def parse_engineering (eng_data : List Nat) : Option EngineeringData :=
  if 2 ≤ eng_data.length then
    let max_moving_gate := eng_data.getD 0 0
    let max_static_gate := eng_data.getD 1 0
    let moving_energies := gate_slice eng_data 2 (max_moving_gate + 1)
    let static_energies := gate_slice eng_data (2 + (max_moving_gate + 1)) (max_static_gate + 1)
    some ⟨max_moving_gate, max_static_gate, moving_energies, static_energies⟩
  else none

def REPORT_HEADER : List Nat := [244, 243, 242, 241]

def REPORT_TAIL : List Nat := [248, 247, 246, 245]

/-- The parsing half of `read_frame`: from the raw line returned by
`read_until(REPORT_TAIL)` to an optional `RadarReading` (before the
validity gate). `target_data = serial_line[8:-6]`. -/
def parse_report (eng_mode : Bool) (t : ℚ) (line : List Nat) : Option RadarReading :=
  if REPORT_HEADER <:+: line ∧ REPORT_TAIL <:+: line then
    let target_data := (line.drop 8).take (line.length - 14)
    if target_data.length < 9 then none
    else
      let basic_data := target_data.take 9
      let engRes : Option (Option EngineeringData) :=
        if eng_mode ∧ 9 < target_data.length then
          match parse_engineering (target_data.drop 9) with
          | none => none
          | some e => some (some e)
        else some none
      match engRes with
      | none => none
      | some engineering_data =>
        some ⟨t, parse_target_state (basic_data.getD 0 0),
          s16_le basic_data 1, s8 (basic_data.getD 3 0),
          s16_le basic_data 4, s8 (basic_data.getD 6 0),
          |s16_le basic_data 7|,
          engineering_data⟩
  else none

def max_buffer_size : Nat := 1000

/-- The buffer-append step of `read_frame`:
`buffer.append(r); if len(buffer) > max_buffer_size: buffer.pop(0)`. -/
def push_reading (buf : List RadarReading) (r : RadarReading) : List RadarReading :=
  let b := buf ++ [r]
  if max_buffer_size < b.length then b.tail else b

/-- Embeds `read_frame`, as a function of the engineering-mode flag, the current
history buffer, the wall-clock time and the raw serial line: returns the
yielded reading (if any) and the updated buffer. -/
def read_frame (eng_mode : Bool) (buf : List RadarReading) (t : ℚ) (line : List Nat) :
    Option RadarReading × List RadarReading :=
  match parse_report eng_mode t line with
  | none => (none, buf)
  | some reading =>
    if reading.is_valid then (some reading, push_reading buf reading)
    else (none, buf)

/-- The last `n` elements of a list (all of it when shorter than `n`). -/
def lastN (n : Nat) (l : List α) : List α :=
  l.drop (l.length - n)

def COMMAND_HEADER : List Nat := [253, 252, 251, 250]

def COMMAND_TAIL : List Nat := [4, 3, 2, 1]

/-- Embeds `n.to_bytes(2, byteorder=little)`. -/
def u16_le_bytes (n : Nat) : List Nat := [n % 256, n / 256 % 256]

/-- Embeds `n.to_bytes(4, little)`. -/
def u32_le_bytes (n : Nat) : List Nat :=
  [n % 256, n / 256 % 256, n / 65536 % 256, n / 16777216 % 256]

/-- The command frame built by `send_command`:
`HEADER ++ intra_frame_length(u16 LE) ++ word ++ value ++ TAIL`. -/
def encode_command (word value : List Nat) : List Nat :=
  COMMAND_HEADER ++ u16_le_bytes (word.length + value.length) ++ word ++ value ++ COMMAND_TAIL

/-- The observable state of a `RadarHandler` plus its transport:
`pending` is the queue of raw responses the serial port will hand back,
one per read (an empty list models a timed-out/empty read); `sent`
records every frame written to the port. -/
structure RadarState where
  pending : List (List Nat)
  sent : List (List Nat)
  engineering_mode : Bool
  original_settings : Option (List Nat)
  deriving DecidableEq

/-- Embeds `RadarHandler.send_command`: writes the encoded frame, reads one raw
response, and returns the empty byte string when that response is shorter
than 12 bytes. -/
def send_command (st : RadarState) (word value : List Nat) : List Nat × RadarState :=
  let response := st.pending.headD []
  let st1 : RadarState :=
    ⟨st.pending.tail, st.sent ++ [encode_command word value],
      st.engineering_mode, st.original_settings⟩
  if response.length < 12 then ([], st1) else (response, st1)

/-- Embeds `RadarHandler.enable_configuration` (command word 0x00FF, value 0x0001). -/
def enable_configuration (st : RadarState) : Bool × RadarState :=
  let p := send_command st [255, 0] [1, 0]
  if p.1.length < 12 then (false, p.2)
  else (le_u16 p.1 8 == 0, p.2)

/-- Embeds `RadarHandler.end_configuration` (command word 0x00FE). -/
def end_configuration (st : RadarState) : Bool × RadarState :=
  let p := send_command st [254, 0] []
  if p.1.length < 12 then (false, p.2)
  else (le_u16 p.1 8 == 0, p.2)

/-- Embeds `RadarHandler.enable_engineering_mode` (command word 0x0062). -/
def enable_engineering_mode (st : RadarState) : Bool × RadarState :=
  let c := enable_configuration st
  if c.1 then
    let p := send_command c.2 [98, 0] []
    if p.1.length < 12 then (false, (end_configuration p.2).2)
    else
      let status := le_u16 p.1 8
      let st2 := if status == 0 then { p.2 with engineering_mode := true } else p.2
      (status == 0, (end_configuration st2).2)
  else (false, c.2)

/-- Embeds `RadarHandler.disable_engineering_mode` (command word 0x0063): builds
the frame by hand, reads with a bare `read_until` (no minimum-length
check), and takes `int.from_bytes(response[8:10]) == 0` as success. -/
def disable_engineering_mode (st : RadarState) : Bool × RadarState :=
  let c := enable_configuration st
  if c.1 then
    let command := COMMAND_HEADER ++ u16_le_bytes 2 ++ [99, 0] ++ COMMAND_TAIL
    let response := c.2.pending.headD []
    let st1 : RadarState :=
      ⟨c.2.pending.tail, c.2.sent ++ [command], c.2.engineering_mode, c.2.original_settings⟩
    let success := le_u16 response 8 == 0
    let st2 := if success then { st1 with engineering_mode := false } else st1
    (success, (end_configuration st2).2)
  else (false, c.2)

/-- Embeds `RadarCalibrator.restore_factory_defaults` (0x00A2, then 0x00A3 on
success). -/
def restore_factory_defaults (st : RadarState) : Bool × RadarState :=
  let c := enable_configuration st
  if c.1 then
    let p := send_command c.2 [162, 0] []
    let success := decide (10 ≤ p.1.length) && ((p.1.drop 8).take 2 == [0, 0])
    let st1 := if success then (send_command p.2 [163, 0] []).2 else p.2
    (success, (end_configuration st1).2)
  else (false, c.2)

/-- Embeds `RadarCalibrator.configure_detection_gates` (0x0060). -/
def configure_detection_gates (st : RadarState) (moving_gate static_gate : Int) :
    Bool × RadarState :=
  if 1 ≤ moving_gate ∧ moving_gate ≤ 8 ∧ 1 ≤ static_gate ∧ static_gate ≤ 8 then
    let c := enable_configuration st
    if c.1 then
      let value := [0, 0] ++ u32_le_bytes moving_gate.toNat ++ [1, 0] ++
        u32_le_bytes static_gate.toNat ++ [2, 0] ++ u32_le_bytes 5
      let p := send_command c.2 [96, 0] value
      let success := decide (10 ≤ p.1.length) && ((p.1.drop 8).take 2 == [0, 0])
      (success, (end_configuration p.2).2)
    else (false, c.2)
  else (false, st)

/-- Embeds `RadarCalibrator.configure_sensitivity` (0x0064): rejects a gate
outside `[0,8]`, then sensitivities outside `[0,100]`, before opening a
configuration session and encoding the three (index, u32-LE) pairs. -/
def configure_sensitivity (st : RadarState) (gate motion_sensitivity static_sensitivity : Int) :
    Bool × RadarState :=
  if 0 ≤ gate ∧ gate ≤ 8 then
    if 0 ≤ motion_sensitivity ∧ motion_sensitivity ≤ 100 ∧
        0 ≤ static_sensitivity ∧ static_sensitivity ≤ 100 then
      let c := enable_configuration st
      if c.1 then
        let value := [0, 0] ++ u32_le_bytes gate.toNat ++ [1, 0] ++
          u32_le_bytes motion_sensitivity.toNat ++ [2, 0] ++
          u32_le_bytes static_sensitivity.toNat
        let p := send_command c.2 [100, 0] value
        let success := decide (10 ≤ p.1.length) && ((p.1.drop 8).take 2 == [0, 0])
        (success, (end_configuration p.2).2)
      else (false, c.2)
    else (false, st)
  else (false, st)

/-- Embeds `RadarCalibrator.backup_settings` (0x0061): stores `response[8:-4]`
when at least 30 bytes arrived, and returns `bool(original_settings)`. -/
def backup_settings (st : RadarState) : Bool × RadarState :=
  let c := enable_configuration st
  if c.1 then
    let p := send_command c.2 [97, 0] []
    let st1 := if 30 ≤ p.1.length then
        { p.2 with original_settings := some ((p.1.drop 8).take (p.1.length - 12)) }
      else p.2
    let st2 := (end_configuration st1).2
    (match st2.original_settings with
     | some l => !l.isEmpty
     | none => false, st2)
  else (false, c.2)

/-- The session-close wire frame (`encode_command` of word 0x00FE). -/
def exit_frame : List Nat := encode_command [254, 0] []

/-- How many session-close commands a state has written to the port. -/
def exit_count (st : RadarState) : Nat :=
  (st.sent.filter (fun f => f == exit_frame)).length

/-- Embeds `MovingAverage` from engg_mode_demo_normed.py: a `deque(maxlen=size)`
of samples. -/
structure MovingAverage where
  size : Nat
  values : List ℚ

/-- The `average` property: 0 when empty, else `sum / len`. -/
def MovingAverage.average (ma : MovingAverage) : ℚ :=
  if ma.values = [] then 0 else ma.values.sum / (ma.values.length : ℚ)

/-- Embeds `add`: the deque appends on the right and, past `maxlen`, evicts the
leftmost element. -/
def MovingAverage.add (ma : MovingAverage) (x : ℚ) : MovingAverage :=
  let vs := ma.values ++ [x]
  ⟨ma.size, if ma.size < vs.length then vs.tail else vs⟩

/-- Feeding a whole sample list through `add`. -/
def MovingAverage.add_all (ma : MovingAverage) (xs : List ℚ) : MovingAverage :=
  xs.foldl MovingAverage.add ma

/-- The successive return values of `add` (it returns `self.average`). -/
def MovingAverage.averages (ma : MovingAverage) (xs : List ℚ) : List ℚ :=
  (xs.foldl (fun p x => (p.1.add x, p.2 ++ [(p.1.add x).average])) (ma, ([] : List ℚ))).2

/-- Embeds `range(min_sensitivity, max_sensitivity + 1, 5)` from
`find_optimal_sensitivity`. -/
def sweep_range (min_sensitivity max_sensitivity : Nat) : List Nat :=
  (List.range ((max_sensitivity + 1 - min_sensitivity + 4) / 5)).map
    (fun i => min_sensitivity + 5 * i)

/-- The detection counter of one sweep iteration: among `samples` calls to
`read_frame`, count those returning a valid reading whose state is not
`NO_TARGET`. The per-attempt outcome is supplied by the oracle `attempt`. -/
def count_detections (attempt : Nat → Option RadarReading) (samples : Nat) : Nat :=
  ((List.range samples).filter (fun i =>
    match attempt i with
    | some reading => reading.is_valid && !(reading.target_state == TargetState.NO_TARGET)
    | none => false)).length

/-- The best-pair update of the sweep: replace only on a strictly greater
detection rate. -/
def sweep_step (rate : Nat → ℚ) (best : Nat × ℚ) (s : Nat) : Nat × ℚ :=
  if best.2 < rate s then (s, rate s) else best

/-- Embeds `RadarCalibrator.find_optimal_sensitivity`, with the per-sensitivity
stream of `read_frame` outcomes abstracted as the oracle `attempts`:
iterate the step-5 range, compute `detections / samples`, and keep the
best pair under strict comparison, starting from `(0, 0)`. -/
def find_optimal_sensitivity (attempts : Nat → Nat → Option RadarReading) (samples : Nat)
    (min_sensitivity max_sensitivity : Nat) : Nat × ℚ :=
  (sweep_range min_sensitivity max_sensitivity).foldl
    (sweep_step (fun s => (count_detections (attempts s) samples : ℚ) / (samples : ℚ)))
    (0, 0)

/-- The validity-gated buffering of `read_frame` iterated over a stream of
decoded readings, starting from the empty history buffer. -/
def process_stream (readings : List RadarReading) : List RadarReading :=
  readings.foldl (fun buf r => if r.is_valid then push_reading buf r else buf) []

lemma lastN_length_le (n : Nat) (l : List α) : (lastN n l).length ≤ n := by
  simp only [lastN, List.length_drop]
  omega

lemma lastN_of_length_le {n : Nat} {l : List α} (h : l.length ≤ n) : lastN n l = l := by
  simp only [lastN]
  have h0 : l.length - n = 0 := by omega
  rw [h0, List.drop_zero]

lemma lastN_append_of_le {n : Nat} (p x : List α) (h : n ≤ x.length) :
    lastN n (p ++ x) = lastN n x := by
  simp only [lastN, List.length_append]
  have h1 : p.length + x.length - n = p.length + (x.length - n) := by omega
  rw [h1, List.drop_append]

lemma lastN_lastN_append (n : Nat) (a b : List α) :
    lastN n (lastN n a ++ b) = lastN n (a ++ b) := by
  by_cases h : a.length ≤ n
  · rw [lastN_of_length_le h]
  · have hlen : (lastN n a).length = n := by
      simp only [lastN, List.length_drop]
      omega
    have h2 : n ≤ (lastN n a ++ b).length := by
      rw [List.length_append, hlen]
      omega
    have h3 : a.take (a.length - n) ++ (lastN n a ++ b) = a ++ b := by
      rw [← List.append_assoc]
      simp only [lastN]
      rw [List.take_append_drop]
    calc lastN n (lastN n a ++ b)
        = lastN n (a.take (a.length - n) ++ (lastN n a ++ b)) :=
          (lastN_append_of_le _ _ h2).symm
      _ = lastN n (a ++ b) := by rw [h3]

lemma append_tail_eq_lastN (n : Nat) (l : List α) (x : α) (h : l.length ≤ n) :
    (if n < (l ++ [x]).length then (l ++ [x]).tail else (l ++ [x])) = lastN n (l ++ [x]) := by
  by_cases hc : n < (l ++ [x]).length
  · rw [if_pos hc]
    simp only [lastN, List.length_append, List.length_cons, List.length_nil]
    have h1 : l.length + (0 + 1) - n = 1 := by
      simp only [List.length_append, List.length_cons, List.length_nil] at hc
      omega
    rw [h1, List.drop_one]
  · rw [if_neg hc]
    exact (lastN_of_length_le (by omega)).symm

lemma gate_slice_eq_drop_take (l : List Nat) (o c : Nat) :
    gate_slice l o c = (l.drop o).take c := by
  induction c with
  | zero => simp [gate_slice]
  | succ c ih =>
    rw [gate_slice, List.range_succ, List.filter_append, List.map_append]
    rw [show ((List.range c).filter (fun i => decide (o + i < l.length))).map
      (fun i => l.getD (o + i) 0) = gate_slice l o c from rfl, ih, List.take_succ]
    congr 1
    rw [List.getElem?_drop]
    by_cases hb : o + c < l.length
    · simp [List.filter_singleton, hb, List.getElem?_eq_getElem hb,
        List.getD_eq_getElem?_getD]
    · rw [List.filter_singleton, List.getElem?_eq_none (by omega)]
      simp [hb]

/-- C4: `is_valid()` is false exactly when the detection distance leaves
`[0,600]`, either energy leaves `[-100,100]`, or the target state is
`UNKNOWN`; it is true at the boundary values 0, 600, -100, 100 and false
just past them at 601, -1, 101, -101. -/
theorem claim_C4_is_valid_characterisation :
    (∀ r : RadarReading, r.is_valid = false ↔
      (¬ (0 ≤ r.detection_distance ∧ r.detection_distance ≤ 600) ∨
       ¬ (-100 ≤ r.moving_target_energy ∧ r.moving_target_energy ≤ 100) ∨
       ¬ (-100 ≤ r.static_target_energy ∧ r.static_target_energy ≤ 100) ∨
       r.target_state = TargetState.UNKNOWN)) ∧
    (RadarReading.is_valid ⟨0, TargetState.NO_TARGET, 0, 100, 0, -100, 0, none⟩ = true ∧
     RadarReading.is_valid ⟨0, TargetState.BOTH_TARGETS, 0, -100, 0, 100, 600, none⟩ = true ∧
     RadarReading.is_valid ⟨0, TargetState.NO_TARGET, 0, 0, 0, 0, 601, none⟩ = false ∧
     RadarReading.is_valid ⟨0, TargetState.NO_TARGET, 0, 0, 0, 0, -1, none⟩ = false ∧
     RadarReading.is_valid ⟨0, TargetState.NO_TARGET, 0, 101, 0, 0, 0, none⟩ = false ∧
     RadarReading.is_valid ⟨0, TargetState.NO_TARGET, 0, -101, 0, 0, 0, none⟩ = false ∧
     RadarReading.is_valid ⟨0, TargetState.NO_TARGET, 0, 0, 0, 101, 0, none⟩ = false ∧
     RadarReading.is_valid ⟨0, TargetState.NO_TARGET, 0, 0, 0, -101, 0, none⟩ = false ∧
     RadarReading.is_valid ⟨0, TargetState.UNKNOWN, 0, 0, 0, 0, 0, none⟩ = false) := by
  refine ⟨fun r => ?_, by decide⟩
  simp only [RadarReading.is_valid, decide_eq_false_iff_not]
  constructor
  · intro h
    by_contra hc
    push_neg at hc
    exact h ⟨hc.1.1, hc.1.2, hc.2.1.1, hc.2.1.2, hc.2.2.1.1, hc.2.2.1.2, hc.2.2.2⟩
  · intro h hall
    rcases h with h | h | h | h
    · exact h ⟨hall.1, hall.2.1⟩
    · exact h ⟨hall.2.2.1, hall.2.2.2.1⟩
    · exact h ⟨hall.2.2.2.2.1, hall.2.2.2.2.2.1⟩
    · exact hall.2.2.2.2.2.2 h

/-- C9: `send_command` returns either the empty byte string (the transport
gave back fewer than 12 bytes) or a response of at least 12 bytes, so
indexing offset 8 of a non-empty result is always in bounds. -/
theorem claim_C9_send_command_min_length (st : RadarState) (word value : List Nat) :
    (send_command st word value).1 = [] ∨ 12 ≤ (send_command st word value).1.length := by
  simp only [send_command]
  split
  · exact Or.inl rfl
  · next h => exact Or.inr (Nat.le_of_not_lt h)

/-- C5: decoding an engineering payload never raises and never pads: for
any declared gate counts the decoded gate sequences are exactly the
declared prefixes of the bytes actually present (so their lengths are the
minimum of the declared count and the available bytes), and a payload
declaring `max_moving_gate = 2` with only 2 trailing bytes decodes to
exactly those 2 moving-gate values. -/
theorem claim_C5_engineering_truncation :
    (∀ m s rest, parse_engineering (m :: s :: rest) =
      some ⟨m, s, rest.take (m + 1), (rest.drop (m + 1)).take (s + 1)⟩) ∧
    (∀ m s rest, ∃ e, parse_engineering (m :: s :: rest) = some e ∧
      e.moving_energy_gates.length = min (m + 1) rest.length ∧
      e.static_energy_gates.length = min (s + 1) (rest.length - (m + 1))) ∧
    parse_engineering [2, 7, 40, 50] = some ⟨2, 7, [40, 50], []⟩ := by
  have key : ∀ m s rest, parse_engineering (m :: s :: rest) =
      some ⟨m, s, rest.take (m + 1), (rest.drop (m + 1)).take (s + 1)⟩ := by
    intro m s rest
    have h2 : (2 : Nat) ≤ (m :: s :: rest).length := by
      simp only [List.length_cons]
      omega
    simp only [parse_engineering]
    rw [if_pos h2]
    have e0 : (m :: s :: rest).getD 0 0 = m := rfl
    have e1 : (m :: s :: rest).getD 1 0 = s := rfl
    simp only [e0, e1, gate_slice_eq_drop_take]
    have ed2 : (m :: s :: rest).drop 2 = rest := rfl
    have ed : (m :: s :: rest).drop (2 + (m + 1)) = rest.drop (m + 1) := by
      have hn : 2 + (m + 1) = (m + 1) + 1 + 1 := by omega
      rw [hn, List.drop_succ_cons, List.drop_succ_cons]
    rw [ed2, ed]
  refine ⟨key, fun m s rest => ⟨_, key m s rest, ?_, ?_⟩, ?_⟩
  · simp [List.length_take]
  · simp [List.length_take, List.length_drop]
  · rw [key]
    rfl

/-- C1: the claim that `configure_sensitivity` accepts the 0xFF
all-gates sentinel fails on the code: for any in-range sensitivities the
call with gate 0xFF is rejected by the `0 ≤ gate ≤ 8` precondition and
returns `False` without opening a configuration session or sending any
frame (the state is untouched), even though `find_optimal_sensitivity`
invokes exactly this call on every sweep iteration. -/
theorem claim_C1_all_sentinel_rejected (st : RadarState) (m s : Int)
    (hm : 0 ≤ m ∧ m ≤ 100) (hs : 0 ≤ s ∧ s ≤ 100) :
    configure_sensitivity st 255 m s = (false, st) := by
  rw [configure_sensitivity, if_neg]
  intro h
  have := h.2
  norm_num at this

/-- C1 witness: the rejection evaluated at sensitivities 50/50 on a
concrete fresh state. -/
theorem claim_C1_all_sentinel_rejected_witness :
    ((0 ≤ (50 : Int) ∧ (50 : Int) ≤ 100) ∧
      configure_sensitivity ⟨[], [], false, none⟩ 255 50 50 = (false, ⟨[], [], false, none⟩)) :=
  ⟨by decide, claim_C1_all_sentinel_rejected ⟨[], [], false, none⟩ 50 50 (by decide) (by decide)⟩

/-- A minimal status-zero acknowledgement frame (12 bytes, status field
at offset 8 equal to zero). -/
def ok_response : List Nat := [253, 252, 251, 250, 4, 0, 255, 1, 0, 0, 1, 0]

/-- A handler in engineering mode whose transport will acknowledge the
session-open command, then time out (empty read) on the 0x0063 command,
then acknowledge the session-close command. -/
def c2_initial_state : RadarState := ⟨[ok_response, [], ok_response], [], true, none⟩

/-- C2: refuted on `disable_engineering_mode`: when the transport times
out on the 0x0063 exchange (an empty response, far shorter than 12
bytes), the operation still reports success and performs its success side
effect of clearing the engineering-mode flag, because it computes the
status from the empty slice at offset 8 as zero instead of checking the
response length. -/
theorem claim_C2_disable_engineering_short_response_reports_success :
    (disable_engineering_mode c2_initial_state).1 = true ∧
    (disable_engineering_mode c2_initial_state).2.engineering_mode = false := by decide

/-- Invariant step of `MovingAverage.add`: under the deque bound, the new
contents are the last `size` elements of the old contents plus the new
sample. -/
lemma MovingAverage.add_eq (ma : MovingAverage) (x : ℚ) (h : ma.values.length ≤ ma.size) :
    ma.add x = ⟨ma.size, lastN ma.size (ma.values ++ [x])⟩ := by
  unfold MovingAverage.add
  exact congrArg (MovingAverage.mk ma.size) (append_tail_eq_lastN ma.size ma.values x h)

lemma MovingAverage.add_all_eq (N : Nat) (v xs : List ℚ) (h : v.length ≤ N) :
    MovingAverage.add_all ⟨N, v⟩ xs = ⟨N, lastN N (v ++ xs)⟩ := by
  induction xs generalizing v with
  | nil =>
    simp only [MovingAverage.add_all, List.foldl_nil, List.append_nil]
    exact congrArg (MovingAverage.mk N) (lastN_of_length_le h).symm
  | cons x xs ih =>
    rw [MovingAverage.add_all, List.foldl_cons,
      show MovingAverage.add ⟨N, v⟩ x = ⟨N, lastN N (v ++ [x])⟩ from
        MovingAverage.add_eq ⟨N, v⟩ x h]
    rw [show List.foldl MovingAverage.add ⟨N, lastN N (v ++ [x])⟩ xs =
      MovingAverage.add_all ⟨N, lastN N (v ++ [x])⟩ xs from rfl]
    rw [ih (lastN N (v ++ [x])) (lastN_length_le N (v ++ [x]))]
    rw [lastN_lastN_append, List.append_assoc, List.singleton_append]

/-- C6: `MovingAverage(N)` retains exactly the last `N` added samples;
after any sequence of adds the average is the arithmetic mean of those
retained samples and is 0 when nothing has been added; for `N = 3` the
samples 10, 20, 30, 40 produce the successive averages 10, 15, 20, 30. -/
theorem claim_C6_moving_average :
    (∀ (N : Nat) (xs : List ℚ),
      (MovingAverage.add_all ⟨N, []⟩ xs).values = lastN N xs) ∧
    (∀ (N : Nat) (xs : List ℚ),
      (MovingAverage.add_all ⟨N, []⟩ xs).average =
        if lastN N xs = [] then 0 else (lastN N xs).sum / ((lastN N xs).length : ℚ)) ∧
    (∀ N : Nat, (MovingAverage.mk N []).average = 0) ∧
    MovingAverage.averages ⟨3, []⟩ [10, 20, 30, 40] = [10, 15, 20, 30] := by
  have hv : ∀ (N : Nat) (xs : List ℚ),
      (MovingAverage.add_all ⟨N, []⟩ xs).values = lastN N xs := by
    intro N xs
    rw [MovingAverage.add_all_eq N [] xs (by simp)]
    rw [List.nil_append]
  refine ⟨hv, fun N xs => ?_, fun N => rfl, ?_⟩
  · rw [MovingAverage.average, hv]
  · norm_num [MovingAverage.averages, MovingAverage.add, MovingAverage.average, List.foldl]
    simp

lemma push_reading_eq_lastN (buf : List RadarReading) (r : RadarReading)
    (h : buf.length ≤ max_buffer_size) :
    push_reading buf r = lastN max_buffer_size (buf ++ [r]) :=
  append_tail_eq_lastN max_buffer_size buf r h

lemma process_stream_fold (v : List RadarReading) (rs : List RadarReading)
    (h : v.length ≤ max_buffer_size) :
    rs.foldl (fun buf r => if r.is_valid then push_reading buf r else buf) v =
      lastN max_buffer_size (v ++ rs.filter (fun r => r.is_valid)) := by
  induction rs generalizing v with
  | nil =>
    simp only [List.foldl_nil, List.filter_nil, List.append_nil]
    exact (lastN_of_length_le h).symm
  | cons r rs ih =>
    rw [List.foldl_cons, List.filter_cons]
    by_cases hr : r.is_valid
    · rw [if_pos hr, push_reading_eq_lastN v r h,
        ih (lastN max_buffer_size (v ++ [r])) (lastN_length_le _ _),
        lastN_lastN_append, List.append_assoc, List.singleton_append]
      simp [hr]
    · rw [if_neg hr, ih v h]
      simp [hr]

/-- C8: after a `read_frame` step on a well-formed history buffer, the
buffer still holds at most 1000 readings, all of them valid; the new
contents are exactly the most recent valid readings in arrival order
(the decoded reading is appended only when valid, the oldest evicted past
the capacity); an invalid decoded reading is neither buffered nor
returned, the call yielding no value; and iterating the gate over any
decoded stream from an empty buffer leaves exactly the last 1000 valid
readings. -/
theorem claim_C8_history_buffer_invariant :
    (∀ (eng : Bool) (buf : List RadarReading) (t : ℚ) (line : List Nat),
      buf.length ≤ max_buffer_size →
      ((read_frame eng buf t line).2 =
        lastN max_buffer_size
          (buf ++ (parse_report eng t line).toList.filter (fun r => r.is_valid)) ∧
       (read_frame eng buf t line).2.length ≤ max_buffer_size ∧
       ((∀ r ∈ buf, r.is_valid = true) →
         ∀ r ∈ (read_frame eng buf t line).2, r.is_valid = true))) ∧
    (∀ (eng : Bool) (buf : List RadarReading) (t : ℚ) (line : List Nat) (r : RadarReading),
      parse_report eng t line = some r → r.is_valid = false →
      read_frame eng buf t line = (none, buf)) ∧
    (∀ rs : List RadarReading,
      process_stream rs = lastN max_buffer_size (rs.filter (fun r => r.is_valid))) := by
  have hmain : ∀ (eng : Bool) (buf : List RadarReading) (t : ℚ) (line : List Nat),
      buf.length ≤ max_buffer_size →
      (read_frame eng buf t line).2 =
        lastN max_buffer_size
          (buf ++ (parse_report eng t line).toList.filter (fun r => r.is_valid)) := by
    intro eng buf t line h
    rw [read_frame]
    cases hp : parse_report eng t line with
    | none =>
      simp only [Option.toList_none, List.filter_nil, List.append_nil]
      exact (lastN_of_length_le h).symm
    | some r =>
      simp only [Option.toList_some, List.filter_cons, List.filter_nil]
      by_cases hr : r.is_valid
      · rw [if_pos hr]
        simp only [hr, if_true]
        exact push_reading_eq_lastN buf r h
      · rw [if_neg hr]
        simp only [hr]
        simp only [Bool.false_eq_true, if_false, List.append_nil]
        exact (lastN_of_length_le h).symm
  refine ⟨fun eng buf t line h => ⟨hmain eng buf t line h, ?_, ?_⟩, ?_, ?_⟩
  · rw [hmain eng buf t line h]
    exact lastN_length_le _ _
  · intro hall r hr
    rw [hmain eng buf t line h] at hr
    have hsub : lastN max_buffer_size
        (buf ++ (parse_report eng t line).toList.filter (fun x => x.is_valid)) ⊆
        buf ++ (parse_report eng t line).toList.filter (fun x => x.is_valid) :=
      (List.drop_suffix _ _).subset
    rcases List.mem_append.mp (hsub hr) with hin | hin
    · exact hall r hin
    · exact (List.mem_filter.mp hin).2
  · intro eng buf t line r hp hr
    simp [read_frame, hp, hr]
  · intro rs
    rw [process_stream, process_stream_fold [] rs (by simp [max_buffer_size]),
      List.nil_append]

/-- C8 witness: the buffer invariant instantiated at the empty buffer and
an empty serial line. -/
theorem claim_C8_history_buffer_invariant_witness :
    ([] : List RadarReading).length ≤ max_buffer_size ∧
    (read_frame false [] 0 []).2 =
      lastN max_buffer_size
        (([] : List RadarReading) ++
          (parse_report false 0 []).toList.filter (fun r => r.is_valid)) :=
  ⟨by decide, (claim_C8_history_buffer_invariant.1 false [] 0 [] (by decide)).1⟩

lemma sweep_no_update (rate : Nat → ℚ) (l : List Nat) (b : Nat × ℚ)
    (h : ∀ t ∈ l, rate t ≤ b.2) : l.foldl (sweep_step rate) b = b := by
  induction l with
  | nil => rfl
  | cons t l ih =>
    rw [List.foldl_cons]
    have hstep : sweep_step rate b t = b := by
      rw [sweep_step, if_neg (not_lt.mpr (h t (List.mem_cons_self t l)))]
    rw [hstep]
    exact ih (fun u hu => h u (List.mem_cons_of_mem t hu))

lemma sweep_bound (rate : Nat → ℚ) (l : List Nat) (b : Nat × ℚ) (c : ℚ)
    (hb : b.2 < c) (h : ∀ t ∈ l, rate t < c) :
    (l.foldl (sweep_step rate) b).2 < c := by
  induction l generalizing b with
  | nil => exact hb
  | cons t l ih =>
    rw [List.foldl_cons]
    refine ih (sweep_step rate b t) ?_ (fun u hu => h u (List.mem_cons_of_mem t hu))
    rw [sweep_step]
    split
    · exact h t (List.mem_cons_self t l)
    · exact hb

lemma sweep_first_max (rate : Nat → ℚ) (l₁ l₂ : List Nat) (s : Nat)
    (h₁ : ∀ t ∈ l₁, rate t < rate s) (h₂ : ∀ t ∈ l₂, rate t ≤ rate s)
    (h0 : 0 < rate s) :
    (l₁ ++ s :: l₂).foldl (sweep_step rate) (0, 0) = (s, rate s) := by
  rw [List.foldl_append, List.foldl_cons]
  have hb : (l₁.foldl (sweep_step rate) (0, 0)).2 < rate s :=
    sweep_bound rate l₁ (0, 0) (rate s) h0 h₁
  rw [show sweep_step rate (l₁.foldl (sweep_step rate) (0, 0)) s = (s, rate s) from by
    rw [sweep_step, if_pos hb]]
  exact sweep_no_update rate l₂ (s, rate s) (fun u hu => h₂ u hu)

/-- A valid reading reporting a moving target (counts as a detection). -/
def detecting_reading : RadarReading :=
  ⟨0, TargetState.MOVING_TARGET, 100, 50, 0, 0, 100, none⟩

/-- A valid reading reporting no target (counts as a non-detection). -/
def idle_reading : RadarReading :=
  ⟨0, TargetState.NO_TARGET, 0, 0, 0, 0, 0, none⟩

/-- The synthetic responder of the sweep test: 24 of 30 attempts detect
(rate 0.8) at sensitivity 50, and 12 of 30 (rate 0.4) at any other
sensitivity. -/
def synthetic_responder (s i : Nat) : Option RadarReading :=
  if s = 50 then (if i < 24 then some detecting_reading else some idle_reading)
  else (if i < 12 then some detecting_reading else some idle_reading)

/-- C7: the sweep iterates the step-5 range from `min_sensitivity` to
`max_sensitivity` inclusive, takes detections divided by the sample count
as the rate, and replaces the best pair only on a strictly greater rate,
so the first (lowest) sensitivity attaining the maximal rate is returned;
against the synthetic responder with rate 0.8 at 50 and 0.4 elsewhere it
returns `(50, 0.8)`. -/
theorem claim_C7_sweep_first_lowest_argmax :
    (∀ (rate : Nat → ℚ) (l₁ l₂ : List Nat) (s : Nat),
      (∀ t ∈ l₁, rate t < rate s) → (∀ t ∈ l₂, rate t ≤ rate s) → 0 < rate s →
      (l₁ ++ s :: l₂).foldl (sweep_step rate) (0, 0) = (s, rate s)) ∧
    sweep_range 0 100 =
      [0, 5, 10, 15, 20, 25, 30, 35, 40, 45, 50,
       55, 60, 65, 70, 75, 80, 85, 90, 95, 100] ∧
    find_optimal_sensitivity synthetic_responder 30 0 100 = (50, 0.8) := by
  refine ⟨sweep_first_max, by decide, ?_⟩
  have h24 : count_detections (synthetic_responder 50) 30 = 24 := by decide
  have h12 : ∀ t : Nat, t ≠ 50 → count_detections (synthetic_responder t) 30 = 12 := by
    intro t ht
    have hfun : synthetic_responder t =
        fun i => if i < 12 then some detecting_reading else some idle_reading := by
      funext i
      simp [synthetic_responder, ht]
    rw [hfun]
    decide
  have hsplit : sweep_range 0 100 =
      [0, 5, 10, 15, 20, 25, 30, 35, 40, 45] ++ 50 ::
      [55, 60, 65, 70, 75, 80, 85, 90, 95, 100] := by decide
  rw [find_optimal_sensitivity, hsplit]
  have hstep := sweep_first_max
    (fun s => (count_detections (synthetic_responder s) 30 : ℚ) / ((30 : Nat) : ℚ))
    [0, 5, 10, 15, 20, 25, 30, 35, 40, 45]
    [55, 60, 65, 70, 75, 80, 85, 90, 95, 100] 50 ?_ ?_ ?_
  · rw [hstep, h24]
    norm_num
  · intro t ht
    have hall : ∀ u ∈ ([0, 5, 10, 15, 20, 25, 30, 35, 40, 45] : List Nat), u ≠ 50 := by decide
    simp only [h12 t (hall t ht), h24]
    norm_num
  · intro t ht
    have hall : ∀ u ∈ ([55, 60, 65, 70, 75, 80, 85, 90, 95, 100] : List Nat), u ≠ 50 := by
      decide
    simp only [h12 t (hall t ht), h24]
    norm_num
  · simp only [h24]
    norm_num

/-- C7 witness: the first-strict-maximum fold property applied to a
concrete two-element sweep. -/
theorem claim_C7_sweep_first_lowest_argmax_witness :
    ([0] ++ 50 :: []).foldl
      (sweep_step (fun s => if s = 50 then (1 : ℚ) else 0)) (0, 0) = (50, 1) := by
  have h := claim_C7_sweep_first_lowest_argmax.1
    (fun s => if s = 50 then (1 : ℚ) else 0) [0] [] 50
    (by
      intro t ht
      simp only [List.mem_singleton] at ht
      subst ht
      norm_num)
    (by
      intro t ht
      exact absurd ht (List.not_mem_nil t))
    (by norm_num)
  simpa using h

/-- C10: when no tested sensitivity yields a strictly positive detection
rate the sweep returns the initial pair `(0, 0)` — even when
`min_sensitivity > 0`, so the reported sensitivity 0 lies outside the
tested range (every tested sensitivity is at least `min_sensitivity`). -/
theorem claim_C10_no_detection_returns_zero_pair :
    (∀ (attempts : Nat → Nat → Option RadarReading) (samples min_s max_s : Nat),
      0 < samples →
      (∀ s ∈ sweep_range min_s max_s, count_detections (attempts s) samples = 0) →
      find_optimal_sensitivity attempts samples min_s max_s = (0, 0)) ∧
    find_optimal_sensitivity (fun _ _ => none) 30 20 40 = (0, 0) ∧
    (∀ s ∈ sweep_range 20 40, 20 ≤ s) := by
  have hgen : ∀ (attempts : Nat → Nat → Option RadarReading) (samples min_s max_s : Nat),
      0 < samples →
      (∀ s ∈ sweep_range min_s max_s, count_detections (attempts s) samples = 0) →
      find_optimal_sensitivity attempts samples min_s max_s = (0, 0) := by
    intro attempts samples min_s max_s hpos hzero
    rw [find_optimal_sensitivity]
    refine sweep_no_update _ _ _ ?_
    intro t ht
    rw [hzero t ht]
    norm_num
  refine ⟨hgen, ?_, by decide⟩
  refine hgen (fun _ _ => none) 30 20 40 (by norm_num) ?_
  intro s hs
  show count_detections (fun _ => none) 30 = 0
  decide

/-- C10 witness: the zero-rate sweep evaluated on a concrete range with a
silent responder. -/
theorem claim_C10_no_detection_returns_zero_pair_witness :
    find_optimal_sensitivity (fun _ _ => none) 10 35 35 = (0, 0) :=
  claim_C10_no_detection_returns_zero_pair.1 (fun _ _ => none) 10 35 35
    (by norm_num) (by decide)

lemma send_command_state (st : RadarState) (w v : List Nat) :
    (send_command st w v).2 =
      ⟨st.pending.tail, st.sent ++ [encode_command w v],
        st.engineering_mode, st.original_settings⟩ := by
  simp only [send_command]
  split <;> rfl

lemma exit_count_send_ne (st : RadarState) (w v : List Nat)
    (h : (encode_command w v == exit_frame) = false) :
    exit_count (send_command st w v).2 = exit_count st := by
  rw [exit_count, send_command_state]
  show (List.filter (fun f => f == exit_frame) (st.sent ++ [encode_command w v])).length = _
  rw [List.filter_append, List.filter_singleton, h]
  simp [exit_count]

lemma exit_count_send_exit (st : RadarState) :
    exit_count (send_command st [254, 0] []).2 = exit_count st + 1 := by
  rw [exit_count, send_command_state]
  show (List.filter (fun f => f == exit_frame) (st.sent ++ [encode_command [254, 0] []])).length = _
  rw [List.filter_append, List.filter_singleton,
    show (encode_command [254, 0] [] == exit_frame) = true from by decide]
  simp [exit_count]

lemma enable_configuration_state (st : RadarState) :
    (enable_configuration st).2 = (send_command st [255, 0] [1, 0]).2 := by
  simp only [enable_configuration]
  split <;> rfl

lemma end_configuration_state (st : RadarState) :
    (end_configuration st).2 = (send_command st [254, 0] []).2 := by
  simp only [end_configuration]
  split <;> rfl

lemma exit_count_enable_configuration (st : RadarState) :
    exit_count (enable_configuration st).2 = exit_count st := by
  rw [enable_configuration_state]
  exact exit_count_send_ne st _ _ (by decide)

lemma exit_count_end_configuration (st : RadarState) :
    exit_count (end_configuration st).2 = exit_count st + 1 := by
  rw [end_configuration_state]
  exact exit_count_send_exit st

lemma exit_count_ite (c : Prop) [Decidable c] (s₁ s₂ : RadarState) (h : s₁.sent = s₂.sent) :
    exit_count (if c then s₁ else s₂) = exit_count s₂ := by
  split
  · rw [exit_count, h]
    rfl
  · rfl

lemma exit_count_sent_append (st : RadarState) (p : List (List Nat)) (f : List Nat)
    (e : Bool) (o : Option (List Nat)) (h : (f == exit_frame) = false) :
    exit_count ⟨p, st.sent ++ [f], e, o⟩ = exit_count st := by
  rw [exit_count]
  show (List.filter (fun g => g == exit_frame) (st.sent ++ [f])).length = _
  rw [List.filter_append, List.filter_singleton, h]
  simp [exit_count]

lemma exit_count_of_send (st : RadarState) (w v : List Nat) (r : List Nat) (st2 : RadarState)
    (h : send_command st w v = (r, st2)) (hne : (encode_command w v == exit_frame) = false) :
    exit_count st2 = exit_count st := by
  have h2 : st2 = (send_command st w v).2 := by rw [h]
  rw [h2]
  exact exit_count_send_ne st w v hne

lemma exit_count_of_enable (st : RadarState) (b : Bool) (st2 : RadarState)
    (h : enable_configuration st = (b, st2)) : exit_count st2 = exit_count st := by
  have h2 : st2 = (enable_configuration st).2 := by rw [h]
  rw [h2]
  exact exit_count_enable_configuration st

lemma encode_beq_exit_of_len (w v : List Nat) (h : w.length + v.length ≠ 2) :
    (encode_command w v == exit_frame) = false := by
  refine beq_eq_false_iff_ne.mpr ?_
  intro heq
  have hlen := congrArg List.length heq
  simp [encode_command, COMMAND_HEADER, COMMAND_TAIL, u16_le_bytes, exit_frame] at hlen
  exact h (by omega)

lemma exit_count_set_eng (st : RadarState) (b : Bool) :
    exit_count { st with engineering_mode := b } = exit_count st := rfl

lemma exit_count_set_settings (st : RadarState) (o : Option (List Nat)) :
    exit_count { st with original_settings := o } = exit_count st := rfl

lemma exit_count_enable_engineering_mode (st : RadarState) :
    exit_count (enable_engineering_mode st).2 =
      exit_count st + (if (enable_configuration st).1 = true then 1 else 0) := by
  rcases hco : enable_configuration st with ⟨cb, cst⟩
  have hcst : exit_count cst = exit_count st := exit_count_of_enable st cb cst hco
  simp only [enable_engineering_mode, hco]
  cases cb with
  | false => simp [hcst]
  | true =>
    rcases hp : send_command cst [98, 0] [] with ⟨resp, pst⟩
    have hpst : exit_count pst = exit_count cst :=
      exit_count_of_send cst _ _ resp pst hp (by decide)
    simp only [hp]
    by_cases hlen : resp.length < 12
    · rw [if_pos (by trivial), if_pos hlen]
      show exit_count (end_configuration pst).2 = _
      rw [exit_count_end_configuration, hpst, hcst]
      simp
    · rw [if_pos (by trivial), if_neg hlen]
      show exit_count (end_configuration
        (if (le_u16 resp 8 == 0) = true then { pst with engineering_mode := true } else pst)).2 = _
      rw [exit_count_end_configuration]
      split
      · rw [exit_count_set_eng, hpst, hcst]
        simp
      · rw [hpst, hcst]
        simp

lemma exit_count_disable_engineering_mode (st : RadarState) :
    exit_count (disable_engineering_mode st).2 =
      exit_count st + (if (enable_configuration st).1 = true then 1 else 0) := by
  rcases hco : enable_configuration st with ⟨cb, cst⟩
  have hcst : exit_count cst = exit_count st := exit_count_of_enable st cb cst hco
  simp only [disable_engineering_mode, hco]
  cases cb with
  | false => simp [hcst]
  | true =>
    rw [if_pos (by trivial)]
    show exit_count (end_configuration _).2 = _
    rw [exit_count_end_configuration]
    split
    · rw [exit_count_sent_append cst _ _ _ _ (by decide), hcst]
      simp
    · rw [exit_count_sent_append cst _ _ _ _ (by decide), hcst]
      simp

lemma exit_count_restore_factory_defaults (st : RadarState) :
    exit_count (restore_factory_defaults st).2 =
      exit_count st + (if (enable_configuration st).1 = true then 1 else 0) := by
  rcases hco : enable_configuration st with ⟨cb, cst⟩
  have hcst : exit_count cst = exit_count st := exit_count_of_enable st cb cst hco
  simp only [restore_factory_defaults, hco]
  cases cb with
  | false => simp [hcst]
  | true =>
    rcases hp : send_command cst [162, 0] [] with ⟨resp, pst⟩
    have hpst : exit_count pst = exit_count cst :=
      exit_count_of_send cst _ _ resp pst hp (by decide)
    simp only [hp]
    rw [if_pos (by trivial)]
    show exit_count (end_configuration _).2 = _
    rw [exit_count_end_configuration]
    split
    · rw [exit_count_send_ne _ _ _ (by decide), hpst, hcst]
      simp
    · rw [hpst, hcst]
      simp

lemma exit_count_backup_settings (st : RadarState) :
    exit_count (backup_settings st).2 =
      exit_count st + (if (enable_configuration st).1 = true then 1 else 0) := by
  rcases hco : enable_configuration st with ⟨cb, cst⟩
  have hcst : exit_count cst = exit_count st := exit_count_of_enable st cb cst hco
  simp only [backup_settings, hco]
  cases cb with
  | false => simp [hcst]
  | true =>
    rcases hp : send_command cst [97, 0] [] with ⟨resp, pst⟩
    have hpst : exit_count pst = exit_count cst :=
      exit_count_of_send cst _ _ resp pst hp (by decide)
    simp only [hp]
    rw [if_pos (by trivial)]
    show exit_count (end_configuration _).2 = _
    rw [exit_count_end_configuration]
    split
    · rw [exit_count_set_settings, hpst, hcst]
      simp
    · rw [hpst, hcst]
      simp

lemma exit_count_configure_detection_gates (st : RadarState) (mg sg : Int) :
    exit_count (configure_detection_gates st mg sg).2 =
      exit_count st +
        (if (1 ≤ mg ∧ mg ≤ 8 ∧ 1 ≤ sg ∧ sg ≤ 8) ∧ (enable_configuration st).1 = true
          then 1 else 0) := by
  by_cases hr : 1 ≤ mg ∧ mg ≤ 8 ∧ 1 ≤ sg ∧ sg ≤ 8
  · rcases hco : enable_configuration st with ⟨cb, cst⟩
    have hcst : exit_count cst = exit_count st := exit_count_of_enable st cb cst hco
    simp only [configure_detection_gates, if_pos hr, hco]
    cases cb with
    | false => simp [hcst]
    | true =>
      rcases hp : send_command cst [96, 0]
          ([0, 0] ++ u32_le_bytes mg.toNat ++ [1, 0] ++ u32_le_bytes sg.toNat ++
            [2, 0] ++ u32_le_bytes 5) with ⟨resp, pst⟩
      have hpst : exit_count pst = exit_count cst :=
        exit_count_of_send cst _ _ resp pst hp
          (encode_beq_exit_of_len _ _ (by simp [u32_le_bytes]))
      simp only [hp]
      rw [if_pos (by trivial)]
      show exit_count (end_configuration pst).2 = _
      rw [exit_count_end_configuration, hpst, hcst]
      simp [hr]
  · simp only [configure_detection_gates, if_neg hr]
    simp [hr]

lemma exit_count_configure_sensitivity (st : RadarState) (g ms ss : Int) :
    exit_count (configure_sensitivity st g ms ss).2 =
      exit_count st +
        (if (0 ≤ g ∧ g ≤ 8) ∧ (0 ≤ ms ∧ ms ≤ 100 ∧ 0 ≤ ss ∧ ss ≤ 100) ∧
            (enable_configuration st).1 = true then 1 else 0) := by
  by_cases hg : 0 ≤ g ∧ g ≤ 8
  · by_cases hs2 : 0 ≤ ms ∧ ms ≤ 100 ∧ 0 ≤ ss ∧ ss ≤ 100
    · rcases hco : enable_configuration st with ⟨cb, cst⟩
      have hcst : exit_count cst = exit_count st := exit_count_of_enable st cb cst hco
      simp only [configure_sensitivity, if_pos hg, if_pos hs2, hco]
      cases cb with
      | false => simp [hcst]
      | true =>
        rcases hp : send_command cst [100, 0]
            ([0, 0] ++ u32_le_bytes g.toNat ++ [1, 0] ++ u32_le_bytes ms.toNat ++
              [2, 0] ++ u32_le_bytes ss.toNat) with ⟨resp, pst⟩
        have hpst : exit_count pst = exit_count cst :=
          exit_count_of_send cst _ _ resp pst hp
            (encode_beq_exit_of_len _ _ (by simp [u32_le_bytes]))
        simp only [hp]
        rw [if_pos (by trivial)]
        show exit_count (end_configuration pst).2 = _
        rw [exit_count_end_configuration, hpst, hcst]
        simp [hg, hs2]
    · simp only [configure_sensitivity, if_pos hg, if_neg hs2]
      simp [hs2]
  · simp only [configure_sensitivity, if_neg hg]
    simp [hg]

/-- C3: every operation that opens a configuration session issues the
session-close command (word 0x00FE) exactly once on every exit path —
success, nonzero status, and short-response/timeout paths alike — and
never when the session open itself failed or a precondition rejected the
call before opening: the number of close frames written grows by exactly
one precisely when `enable_configuration` succeeded. -/
theorem claim_C3_session_close_exactly_once (st : RadarState) :
    (exit_count (enable_engineering_mode st).2 =
      exit_count st + (if (enable_configuration st).1 = true then 1 else 0)) ∧
    (exit_count (disable_engineering_mode st).2 =
      exit_count st + (if (enable_configuration st).1 = true then 1 else 0)) ∧
    (exit_count (restore_factory_defaults st).2 =
      exit_count st + (if (enable_configuration st).1 = true then 1 else 0)) ∧
    (∀ mg sg : Int, exit_count (configure_detection_gates st mg sg).2 =
      exit_count st +
        (if (1 ≤ mg ∧ mg ≤ 8 ∧ 1 ≤ sg ∧ sg ≤ 8) ∧ (enable_configuration st).1 = true
          then 1 else 0)) ∧
    (∀ g ms ss : Int, exit_count (configure_sensitivity st g ms ss).2 =
      exit_count st +
        (if (0 ≤ g ∧ g ≤ 8) ∧ (0 ≤ ms ∧ ms ≤ 100 ∧ 0 ≤ ss ∧ ss ≤ 100) ∧
            (enable_configuration st).1 = true then 1 else 0)) ∧
    (exit_count (backup_settings st).2 =
      exit_count st + (if (enable_configuration st).1 = true then 1 else 0)) :=
  ⟨exit_count_enable_engineering_mode st,
   exit_count_disable_engineering_mode st,
   exit_count_restore_factory_defaults st,
   fun mg sg => exit_count_configure_detection_gates st mg sg,
   fun g ms ss => exit_count_configure_sensitivity st g ms ss,
   exit_count_backup_settings st⟩
